import Mathlib

/-!
Shallow embedding of the normalization core of the `ojp-rs` crate
(`src/model.rs`): the duration codec (`mod duration`), the stop identifier
normalizer (`iso_to_uic`, `sloid_to_didok`, `LegEndpoint::id`), the leg
polymorphism resolver (`LegType` and its `TryFrom<&Leg>`), the trip
simplifier (`TryFrom<&Trip> for SimplifiedTrip`) and the comparison utility
`SimplifiedTrip::approx_equal`.

Modelling conventions:
* `chrono::DateTime<Local>` / `NaiveDateTime` values are modelled as `Int`
  (seconds on a linear time axis); `.naive_local()` is the identity under
  this model.  `chrono::Duration` / `TimeDelta` values are `Int` seconds.
* Rust machine integers are modelled as `Int` together with the explicit
  range checks that `i32::from_str` / `i64::from_str` perform (parsing
  fails outside `[-2^31, 2^31-1]` resp. `[-2^63, 2^63-1]`).  The duration
  codec's `i64` accumulation is modelled as unbounded `Int`: its overflow
  (a build-dependent panic or wrap, never a returned value) and the range
  panic of `chrono::Duration::seconds` (at `|seconds| >
  9223372036854775`, i.e. `i64::MAX` milliseconds) are outside the
  embedding, so the duration theorems restrict to totals within that
  range, where every intermediate `i64` product and partial sum is also
  in range and model and program agree exactly.
* `f64` arithmetic in `approx_equal` is modelled by exact rationals.
* Fallible Rust code (`Result<_, OjpError>`) becomes `Except OjpError _`;
  serde's `D::Error` in the duration codec becomes the `DurationError`
  inductive, one constructor per `de::Error::custom` site.
* Inert payload subtrees that no embedded function ever reads
  (`LegTrack`, `PathGuidance`, `EmissionCO2` and the geo/track geometry)
  are omitted from the record types; every field an embedded function
  reads is present.
-/

namespace Ojp

/-- Value of a big-endian list of ASCII decimal digit characters
(the accumulator semantics of Rust integer parsing). -/
def digitsVal (cs : List Char) : Nat :=
  cs.foldl (fun a c => 10 * a + (c.toNat - 48)) 0

/-- Rust `str::to_lowercase` restricted to its ASCII action (the country
codes it is compared against are ASCII), modelled character-wise so that
it reduces structurally. -/
def strToLower (s : String) : String :=
  ⟨s.data.map Char.toLower⟩

/-- Structural splitting of a character list at `':'` separators,
keeping empty fragments, as Rust `str::split(':')` does. -/
def splitCh : List Char → List (List Char)
  | [] => [[]]
  | c :: rest =>
    if c = ':' then [] :: splitCh rest
    else
      match splitCh rest with
      | g :: gs => (c :: g) :: gs
      | [] => [[c]]

/-- Rust `str::split(':').collect::<Vec<&str>>()` on a string. -/
def splitOnColon (s : String) : List String :=
  (splitCh s.data).map fun l => ⟨l⟩

/-- Split an optional leading ASCII sign off a character list, returning
the sign as `1` or `-1`, as Rust integer parsing does. -/
def splitSign : List Char → Int × List Char
  | [] => (1, [])
  | c :: rest =>
    if c = '-' then (-1, rest)
    else if c = '+' then (1, rest)
    else (1, c :: rest)

/-- Rust `FromStr` for a signed integer type with range `[lo, hi]`:
an optional sign followed by one or more ASCII digits, failing when the
value falls outside the range. -/
def parseIntRange (lo hi : Int) (s : String) : Option Int :=
  if (splitSign s.toList).2 ≠ [] ∧ (splitSign s.toList).2.all Char.isDigit = true then
    if lo ≤ (splitSign s.toList).1 * (digitsVal (splitSign s.toList).2 : Int) ∧
        (splitSign s.toList).1 * (digitsVal (splitSign s.toList).2 : Int) ≤ hi then
      some ((splitSign s.toList).1 * (digitsVal (splitSign s.toList).2 : Int))
    else none
  else none

/-- Rust `i32::from_str` (as used by `str::parse::<i32>`). -/
def parseI32 (s : String) : Option Int :=
  parseIntRange (-(2 ^ 31)) (2 ^ 31 - 1) s

/-- Rust `i64::from_str` applied to the digit-only strings accumulated by
the duration decoder: such a parse fails exactly when the value exceeds
`i64::MAX`. -/
def parseI64Digits (cs : List Char) : Option Int :=
  if (digitsVal cs : Int) ≤ 2 ^ 63 - 1 then some (digitsVal cs : Int) else none

/-- Big-endian decimal digit characters of a natural number, rendering `0`
as `"0"`, as Rust's `Display` for integers does. -/
def natDecimalDigits (n : Nat) : List Char :=
  if n = 0 then ['0']
  else (Nat.digits 10 n).reverse.map fun d => Char.ofNat (48 + d)

/-- Decimal rendering of a natural number. -/
def natToDecimalString (n : Nat) : String :=
  ⟨natDecimalDigits n⟩

/-- Rust `format!` with `{}` on an `i32` value. -/
def intToDecimalString (i : Int) : String :=
  if i < 0 then "-" ++ natToDecimalString i.natAbs else natToDecimalString i.natAbs

/-- Left-pad a string with `'0'` up to width `w`. -/
def padZeros (w : Nat) (s : String) : String :=
  ⟨List.replicate (w - s.length) '0'⟩ ++ s

/-- Rust `format!` with `{:05}` on an `i32` value: zero-fill to total width
5, the sign counting toward the width and the fill going between the sign
and the digits. -/
def formatI32Pad5 (i : Int) : String :=
  if i < 0 then "-" ++ padZeros 4 (natToDecimalString i.natAbs)
  else padZeros 5 (natToDecimalString i.natAbs)

/-- The error enum `OjpError` of `src/model.rs`.  Payloads carried only for
diagnostics are kept as plain strings; the `ParseIntError` payload of the
`ParseInt` variant is dropped (the code never inspects it). -/
inductive OjpError where
  | FailedToParseXml (payload : String)
  | FailedToFindTrip (dep_id arr_id : Int) (msg : String)
  | UnkownLegType
  | ParseInt
  | FailedToConvertToSimplifiedTrip
  | UnableToGetApiToken
  | RequestBuilderError
  | PlaceResultsNotFound
  | MalformedSloid (sloid : String)
  | FailedToConvertIsoCode (iso : String)
  deriving DecidableEq, Repr

/-- The fixed ISO-country-code → UIC-prefix table `iso_to_uic` of
`src/model.rs`, matched after lowercasing. -/
def iso_to_uic (iso : String) : Option Int :=
  match strToLower iso with
  | "fi" => some 10
  | "ru" => some 20
  | "by" => some 21
  | "ua" => some 22
  | "md" => some 23
  | "lt" => some 24
  | "lv" => some 25
  | "ee" => some 26
  | "kz" => some 27
  | "ge" => some 28
  | "uz" => some 29
  | "kp" => some 30
  | "mn" => some 31
  | "nn" => some 32
  | "cn" => some 33
  | "la" => some 34
  | "cu" => some 40
  | "al" => some 41
  | "jp" => some 42
  | "ba" => some 44
  | "pl" => some 51
  | "bg" => some 52
  | "ro" => some 53
  | "cz" => some 54
  | "hu" => some 55
  | "sk" => some 56
  | "az" => some 57
  | "am" => some 58
  | "kg" => some 59
  | "ie" => some 60
  | "kr" => some 61
  | "me" => some 62
  | "mk" => some 65
  | "tj" => some 66
  | "tm" => some 67
  | "af" => some 68
  | "gb" => some 70
  | "es" => some 71
  | "rs" => some 72
  | "gr" => some 73
  | "se" => some 74
  | "tr" => some 75
  | "no" => some 76
  | "hr" => some 78
  | "si" => some 79
  | "de" => some 80
  | "at" => some 81
  | "lu" => some 82
  | "it" => some 83
  | "nl" => some 84
  | "ch" => some 85
  | "dk" => some 86
  | "fr" => some 87
  | "be" => some 88
  | "tz" => some 89
  | "eg" => some 90
  | "tn" => some 91
  | "dz" => some 92
  | "ma" => some 93
  | "pt" => some 94
  | "il" => some 95
  | "ir" => some 96
  | "sy" => some 97
  | "lb" => some 98
  | "iq" => some 99
  | _ => none

/-- The `sloid_to_didok` function of `src/model.rs`.  Splitting on `:`
and requiring at least 4 parts is rendered as a pattern match on the
split result; `parts[0]` and `parts[3]` are the matched components.
The source lowercases part 0 before the table lookup; here the lookup
function itself lowercases (see `iso_to_uic`), so part 0 is passed
lowercased to keep the error payload identical. -/
def sloid_to_didok (sloid : String) : Except OjpError Int :=
  match splitOnColon sloid with
  | p0 :: _p1 :: _p2 :: p3 :: _rest =>
    let iso := strToLower p0
    match iso_to_uic iso with
    | none => .error (.FailedToConvertIsoCode iso)
    | some uic =>
      match parseI32 p3 with
      | none => .error .ParseInt
      | some num =>
        match parseI32 (intToDecimalString uic ++ formatI32Pad5 num) with
        | none => .error .ParseInt
        | some didok => .ok didok
  | _ => .error (.MalformedSloid sloid)

/-- The shared body of `LegEndpoint::id`, `LegBoard::id` and
`LegAlight::id` in `src/model.rs`: try a direct `i32` parse of the stop
point reference, fall back to `sloid_to_didok`. -/
def stopRefToId (stop_point_ref : String) : Except OjpError Int :=
  match parseI32 stop_point_ref with
  | some num => .ok num
  | none => sloid_to_didok stop_point_ref

/-- Error cases of the duration codec (`mod duration` in `src/model.rs`);
one constructor per `de::Error::custom` call site. -/
inductive DurationError where
  | badStart (s : String)
  | missingNumber (c : Char)
  | intParse
  | invalidUnit (c : Char)
  | trailingDigits
  deriving DecidableEq, Repr

/-- The character loop of `duration::deserialize`: `acc` is
`current_number_str`, `sign` is the sign factor, `total` is
`total_seconds`.  The source computes `total_seconds += sign * value *
unit` in `i64`; here the accumulator is an unbounded `Int`, so this
model is faithful only while no `i64` product or partial sum overflows
(all contributions share the sign, so it suffices that the final
magnitude is in range) - the duration theorems carry that bound as a
hypothesis. -/
def decodeLoop : List Char → List Char → Int → Int → Except DurationError Int
  | [], acc, _sign, total =>
    if acc = [] then .ok total else .error .trailingDigits
  | c :: cs, acc, sign, total =>
    if c.isDigit then decodeLoop cs (acc ++ [c]) sign total
    else if acc = [] then .error (.missingNumber c)
    else
      match parseI64Digits acc with
      | none => .error .intParse
      | some value =>
        match c with
        | 'H' => decodeLoop cs [] sign (total + sign * value * 3600)
        | 'M' => decodeLoop cs [] sign (total + sign * value * 60)
        | 'S' => decodeLoop cs [] sign (total + sign * value)
        | _ => .error (.invalidUnit c)

/-- Rust `str::strip_prefix` on character lists: `some` of the remainder
when the first argument is a prefix, `none` otherwise. -/
def dropPre : List Char → List Char → Option (List Char)
  | [], cs => some cs
  | _ :: _, [] => none
  | p :: ps, c :: cs => if c = p then dropPre ps cs else none

/-- The duration codec `duration::deserialize` of `src/model.rs`: the
`"PT"` prefix is stripped first, then `"-PT"`, then the format error; the
remainder is scanned by `decodeLoop`. -/
def decodeDuration (s : String) : Except DurationError Int :=
  match dropPre ['P', 'T'] s.data with
  | some rest => decodeLoop rest [] 1 0
  | none =>
    match dropPre ['-', 'P', 'T'] s.data with
    | some rest => decodeLoop rest [] (-1) 0
    | none => .error (.badStart s)

/-- Seconds contributed per unit of a duration group (`H`, `M`, `S`). -/
def unitSeconds (u : Char) : Int :=
  if u = 'H' then 3600 else if u = 'M' then 60 else 1

/-- Rendering of one `<digits><unit>` duration group as characters. -/
def renderGroup (g : List Char × Char) : List Char :=
  g.1 ++ [g.2]

/-- Rendering of a list of duration groups as characters. -/
def renderGroups (gs : List (List Char × Char)) : List Char :=
  (gs.map renderGroup).flatten

instance {ε α : Type} [DecidableEq ε] [DecidableEq α] : DecidableEq (Except ε α) := fun x y =>
  match x, y with
  | .ok a, .ok b =>
    match decEq a b with
    | isTrue h => isTrue (h ▸ rfl)
    | isFalse h => isFalse fun he => h (Except.ok.inj he)
  | .error a, .error b =>
    match decEq a b with
    | isTrue h => isTrue (h ▸ rfl)
    | isFalse h => isFalse fun he => h (Except.error.inj he)
  | .ok _, .error _ => isFalse fun he => Except.noConfusion he
  | .error _, .ok _ => isFalse fun he => Except.noConfusion he

/-- The `Text` leaf record (a wrapped display string). -/
structure Text where
  text : String
  deriving DecidableEq, Repr

/-- The `ServiceDeparture` record: a planned timetabled time and an
optional live estimate. -/
structure ServiceDeparture where
  timetabled_time : Int
  estimated_time : Option Int
  deriving DecidableEq, Repr

/-- The `ServiceArrival` record: a planned timetabled time and an
optional live estimate. -/
structure ServiceArrival where
  timetabled_time : Int
  estimated_time : Option Int
  deriving DecidableEq, Repr

/-- The `ExpectedDepartureOccupancy` leaf record. -/
structure ExpectedDepartureOccupancy where
  fare_class : String
  occupancy_level : String
  deriving DecidableEq, Repr

/-- The `Mode` record of a timed service. -/
structure Mode where
  pt_mode : String
  rail_submode : String
  name : Text
  short_name : Text
  deriving DecidableEq, Repr

/-- Accessor `Mode::name`. -/
def Mode.modeName (m : Mode) : String :=
  m.name.text

/-- The `ProductCategory` leaf record. -/
structure ProductCategory where
  name : Text
  short_name : Text
  product_category_ref : String
  deriving DecidableEq, Repr

/-- The `Attribute` leaf record. -/
structure Attribute where
  user_text : Text
  code : String
  importance : Nat
  deriving DecidableEq, Repr

/-- The `Service` record of a timed leg. -/
structure Service where
  operating_day_ref : String
  journey_ref : String
  public_code : String
  line_ref : String
  direction_ref : String
  mode : Mode
  product_category : Option ProductCategory
  published_service_name : Text
  train_number : String
  attributes : List Attribute
  origin_text : Text
  operator_ref : String
  destination_stop_point_ref : String
  destination_text : Text
  origin_stop_point_ref : String
  deriving DecidableEq, Repr

/-- The `LegBoard` record of a timed leg. -/
structure LegBoard where
  stop_point_ref : String
  stop_point_name : Text
  name_suffix : Option Text
  planned_quay : Option Text
  estimated_quay : Option Text
  service_departure : ServiceDeparture
  order : Nat
  expected_departure_occupancies : List ExpectedDepartureOccupancy
  deriving DecidableEq, Repr

/-- Accessor `LegBoard::id`. -/
def LegBoard.id (b : LegBoard) : Except OjpError Int :=
  stopRefToId b.stop_point_ref

/-- Accessor `LegBoard::name`. -/
def LegBoard.boardName (b : LegBoard) : String :=
  b.stop_point_name.text

/-- The `LegAlight` record of a timed leg. -/
structure LegAlight where
  stop_point_ref : String
  stop_point_name : Text
  name_suffix : Option Text
  planned_quay : Option Text
  estimated_quay : Option Text
  service_arrival : ServiceArrival
  order : Nat
  deriving DecidableEq, Repr

/-- Accessor `LegAlight::id`. -/
def LegAlight.id (a : LegAlight) : Except OjpError Int :=
  stopRefToId a.stop_point_ref

/-- Accessor `LegAlight::name`. -/
def LegAlight.alightName (a : LegAlight) : String :=
  a.stop_point_name.text

/-- The `LegIntermediate` record of a timed leg. -/
structure LegIntermediate where
  stop_point_ref : String
  stop_point_name : Text
  name_suffix : Option Text
  planned_quay : Option Text
  service_arrival : Option ServiceArrival
  service_departure : Option ServiceDeparture
  order : Nat
  expected_departure_occupancies : List ExpectedDepartureOccupancy
  deriving DecidableEq, Repr

/-- The `TimedLeg` wire record (the `leg_track` geometry payload, never
read by the embedded functions, is omitted). -/
structure TimedLeg where
  leg_board : LegBoard
  leg_alight : LegAlight
  leg_intermediates : List LegIntermediate
  service : Service
  deriving DecidableEq, Repr

/-- Accessor `TimedLeg::departure_time`. -/
def TimedLeg.departure_time (tl : TimedLeg) : Int :=
  tl.leg_board.service_departure.timetabled_time

/-- Accessor `TimedLeg::arrival_time`. -/
def TimedLeg.arrival_time (tl : TimedLeg) : Int :=
  tl.leg_alight.service_arrival.timetabled_time

/-- Accessor `TimedLeg::departure_id`. -/
def TimedLeg.departure_id (tl : TimedLeg) : Except OjpError Int :=
  tl.leg_board.id

/-- Accessor `TimedLeg::arrival_id`. -/
def TimedLeg.arrival_id (tl : TimedLeg) : Except OjpError Int :=
  tl.leg_alight.id

/-- Accessor `TimedLeg::departure_stop`. -/
def TimedLeg.departure_stop (tl : TimedLeg) : String :=
  tl.leg_board.boardName

/-- Accessor `TimedLeg::arrival_stop`. -/
def TimedLeg.arrival_stop (tl : TimedLeg) : String :=
  tl.leg_alight.alightName

/-- The `LegEndpoint` record shared by transfer and continuous legs. -/
structure LegEndpoint where
  stop_point_ref : String
  name : Text
  deriving DecidableEq, Repr

/-- Accessor `LegEndpoint::id`. -/
def LegEndpoint.id (e : LegEndpoint) : Except OjpError Int :=
  stopRefToId e.stop_point_ref

/-- Accessor `LegEndpoint::name`. -/
def LegEndpoint.endpointName (e : LegEndpoint) : String :=
  e.name.text

/-- The `TransferLeg` wire record. -/
structure TransferLeg where
  transfer_type : String
  leg_start : LegEndpoint
  leg_end : LegEndpoint
  duration : Int
  deriving DecidableEq, Repr

/-- Accessor `TransferLeg::departure_stop`. -/
def TransferLeg.departure_stop (t : TransferLeg) : String :=
  t.leg_start.endpointName

/-- Accessor `TransferLeg::arrival_stop`. -/
def TransferLeg.arrival_stop (t : TransferLeg) : String :=
  t.leg_end.endpointName

/-- Accessor `TransferLeg::departure_id`. -/
def TransferLeg.departure_id (t : TransferLeg) : Except OjpError Int :=
  t.leg_start.id

/-- Accessor `TransferLeg::arrival_id`. -/
def TransferLeg.arrival_id (t : TransferLeg) : Except OjpError Int :=
  t.leg_end.id

/-- The `ContinuousService` record. -/
structure ContinuousService where
  personal_mode_of_operation : String
  personal_mode : String
  deriving DecidableEq, Repr

/-- The `ContinuousLeg` wire record (the `leg_track` / `path_guidance`
geometry payloads, never read by the embedded functions, are omitted). -/
structure ContinuousLeg where
  leg_start : LegEndpoint
  leg_end : LegEndpoint
  service : ContinuousService
  duration : Int
  length : Int
  deriving DecidableEq, Repr

/-- Accessor `ContinuousLeg::departure_stop`. -/
def ContinuousLeg.departure_stop (c : ContinuousLeg) : String :=
  c.leg_start.endpointName

/-- Accessor `ContinuousLeg::arrival_stop`. -/
def ContinuousLeg.arrival_stop (c : ContinuousLeg) : String :=
  c.leg_end.endpointName

/-- Accessor `ContinuousLeg::departure_id`. -/
def ContinuousLeg.departure_id (c : ContinuousLeg) : Except OjpError Int :=
  c.leg_start.id

/-- Accessor `ContinuousLeg::arrival_id`. -/
def ContinuousLeg.arrival_id (c : ContinuousLeg) : Except OjpError Int :=
  c.leg_end.id

/-- The generic `Leg` wire record, carrying the three mutually-exclusive
optional sub-shapes (the `emission_co2` float payload, never read by the
embedded functions, is omitted). -/
structure Leg where
  id : Nat
  duration : Int
  timed_leg : Option TimedLeg
  transfer_leg : Option TransferLeg
  continuous_leg : Option ContinuousLeg
  deriving DecidableEq, Repr

/-- The `Trip` wire record. -/
structure Trip where
  id : String
  duration : Int
  start_time : Int
  end_time : Int
  transfers : Nat
  distance : Option Nat
  legs : List Leg
  deriving DecidableEq, Repr

/-- The resolved leg view: the `LegType` enum of `src/model.rs` (values
instead of references under this model). -/
inductive LegType where
  | Timed (tl : TimedLeg)
  | Transfer (t : TransferLeg)
  | Continuous (t : ContinuousLeg)
  deriving DecidableEq, Repr

/-- Resolver `TryFrom<&Leg> for LegType`: tries `timed_leg`, then
`transfer_leg`, then `continuous_leg`, failing with `UnkownLegType` when
none is populated. -/
def LegType.tryFrom (value : Leg) : Except OjpError LegType :=
  match value.timed_leg with
  | some l => .ok (.Timed l)
  | none =>
    match value.transfer_leg with
    | some l => .ok (.Transfer l)
    | none =>
      match value.continuous_leg with
      | some l => .ok (.Continuous l)
      | none => .error .UnkownLegType

/-- View capability `LegType::duration`. -/
def LegType.duration : LegType → Int
  | .Timed tl => tl.arrival_time - tl.departure_time
  | .Transfer t => t.duration
  | .Continuous t => t.duration

/-- View capability `LegType::departure_time` (present only on timed
legs). -/
def LegType.departure_time : LegType → Option Int
  | .Timed tl => some tl.departure_time
  | .Transfer _ => none
  | .Continuous _ => none

/-- View capability `LegType::arrival_time` (present only on timed
legs). -/
def LegType.arrival_time : LegType → Option Int
  | .Timed tl => some tl.arrival_time
  | .Transfer _ => none
  | .Continuous _ => none

/-- View capability `LegType::departure_stop`. -/
def LegType.departure_stop : LegType → String
  | .Timed tl => tl.departure_stop
  | .Transfer t => t.departure_stop
  | .Continuous t => t.departure_stop

/-- View capability `LegType::arrival_stop`. -/
def LegType.arrival_stop : LegType → String
  | .Timed tl => tl.arrival_stop
  | .Transfer t => t.arrival_stop
  | .Continuous t => t.arrival_stop

/-- View capability `LegType::departure_id`. -/
def LegType.departure_id : LegType → Except OjpError Int
  | .Timed tl => tl.departure_id
  | .Transfer t => t.departure_id
  | .Continuous t => t.departure_id

/-- View capability `LegType::arrival_id`. -/
def LegType.arrival_id : LegType → Except OjpError Int
  | .Timed tl => tl.arrival_id
  | .Transfer t => t.arrival_id
  | .Continuous t => t.arrival_id

/-- View capability `LegType::mode`. -/
def LegType.mode : LegType → String
  | .Timed tl => tl.service.mode.modeName
  | .Transfer t => t.transfer_type
  | .Continuous t => t.service.personal_mode

/-- The `SimplifiedLeg` output record. -/
structure SimplifiedLeg where
  departure_id : Int
  departure_stop : String
  arrival_id : Int
  arrival_stop : String
  departure_time : Int
  arrival_time : Int
  mode : String
  deriving DecidableEq, Repr

/-- The `SimplifiedTrip` output record. -/
structure SimplifiedTrip where
  legs : List SimplifiedLeg
  deriving DecidableEq, Repr

/-- The body of the per-leg closure inside
`TryFrom<&Trip> for SimplifiedTrip`: converts one leg given the current
`prev_arr_time` accumulator and returns the emitted leg together with the
updated accumulator (the closure writes it back to the captured mutable
variable). -/
def convertLeg (prev_arr_time : Int) (leg : Leg) :
    Except OjpError (SimplifiedLeg × Int) :=
  match LegType.tryFrom leg with
  | .error e => .error e
  | .ok typed_leg =>
    match typed_leg.departure_id with
    | .error e => .error e
    | .ok departure_id =>
      match typed_leg.arrival_id with
      | .error e => .error e
      | .ok arrival_id =>
        .ok ({ departure_id := departure_id,
               departure_stop := typed_leg.departure_stop,
               arrival_id := arrival_id,
               arrival_stop := typed_leg.arrival_stop,
               departure_time := typed_leg.departure_time.getD prev_arr_time,
               arrival_time :=
                 typed_leg.arrival_time.getD (prev_arr_time + typed_leg.duration),
               mode := typed_leg.mode },
              typed_leg.arrival_time.getD (prev_arr_time + typed_leg.duration))

/-- The fallible steps of the per-leg closure, in source order (kind
resolution, then departure id, then arrival id); none of them reads the
`prev_arr_time` accumulator, so whether a leg fails — and with which
error — is a property of the leg alone. -/
def legStepError (leg : Leg) : Option OjpError :=
  match LegType.tryFrom leg with
  | .error e => some e
  | .ok typed_leg =>
    match typed_leg.departure_id with
    | .error e => some e
    | .ok _ =>
      match typed_leg.arrival_id with
      | .error e => some e
      | .ok _ => none

/-- The iterator `map` + `collect::<Result<Vec<_>, _>>` of
`TryFrom<&Trip> for SimplifiedTrip`: legs are converted strictly
left-to-right, threading the accumulator, and the first error
short-circuits the whole collection. -/
def convertLegs (prev_arr_time : Int) : List Leg → Except OjpError (List SimplifiedLeg)
  | [] => .ok []
  | leg :: rest =>
    match convertLeg prev_arr_time leg with
    | .error e => .error e
    | .ok (sl, new_prev) =>
      match convertLegs new_prev rest with
      | .error e => .error e
      | .ok sls => .ok (sl :: sls)

/-- The trip simplifier `TryFrom<&Trip> for SimplifiedTrip`:
`prev_arr_time` starts at the trip's own start time. -/
def SimplifiedTrip.tryFromTrip (value : Trip) : Except OjpError SimplifiedTrip :=
  match convertLegs value.start_time value.legs with
  | .error e => .error e
  | .ok st => .ok { legs := st }

/-- Accessor `SimplifiedTrip::departure_time` (the Rust accessor unwraps
the first leg and panics on an empty trip; here the non-emptiness proof is
taken as an argument). -/
def SimplifiedTrip.departure_time (st : SimplifiedTrip) (h : st.legs ≠ []) : Int :=
  (st.legs.head h).departure_time

/-- Accessor `SimplifiedTrip::arrival_time`. -/
def SimplifiedTrip.arrival_time (st : SimplifiedTrip) (h : st.legs ≠ []) : Int :=
  (st.legs.getLast h).arrival_time

/-- Accessor `SimplifiedTrip::duration`. -/
def SimplifiedTrip.duration (st : SimplifiedTrip) (h : st.legs ≠ []) : Int :=
  st.arrival_time h - st.departure_time h

/-- Accessor `SimplifiedTrip::departure_id`. -/
def SimplifiedTrip.departure_id (st : SimplifiedTrip) (h : st.legs ≠ []) : Int :=
  (st.legs.head h).departure_id

/-- Accessor `SimplifiedTrip::arrival_id`. -/
def SimplifiedTrip.arrival_id (st : SimplifiedTrip) (h : st.legs ≠ []) : Int :=
  (st.legs.getLast h).arrival_id

/-- Accessor `SimplifiedTrip::departure_stop`. -/
def SimplifiedTrip.departure_stop (st : SimplifiedTrip) (h : st.legs ≠ []) : String :=
  (st.legs.head h).departure_stop

/-- Accessor `SimplifiedTrip::arrival_stop`. -/
def SimplifiedTrip.arrival_stop (st : SimplifiedTrip) (h : st.legs ≠ []) : String :=
  (st.legs.getLast h).arrival_stop

/-- The comparison utility `SimplifiedTrip::approx_equal` of
`src/model.rs`, with its `f64` arithmetic modelled by exact rationals and
its early returns rendered as nested conditionals.  Note that the
time-offset checks are on the signed differences (the source takes no
absolute value there) and use the accessor-derived durations. -/
def SimplifiedTrip.approx_equal (a b : SimplifiedTrip)
    (ha : a.legs ≠ []) (hb : b.legs ≠ []) (tolerance : Rat) : Bool :=
  if a.departure_id ha ≠ b.departure_id hb ∨ a.arrival_id ha ≠ b.arrival_id hb then
    false
  else if |((a.duration ha : Rat)) - ((b.duration hb : Rat))| / ((b.duration hb : Rat))
      > tolerance then
    false
  else if ((a.departure_time ha : Rat) - (b.departure_time hb : Rat)) / ((a.duration ha : Rat))
        > tolerance
      ∨ ((a.arrival_time ha : Rat) - (b.arrival_time hb : Rat)) / ((a.duration ha : Rat))
        > tolerance then
    false
  else
    true

/-- Example timetabled service used by the concrete trips below. -/
def exService : Service :=
  { operating_day_ref := "2025-11-19", journey_ref := "j1", public_code := "IC"
    line_ref := "l1", direction_ref := "d1"
    mode := { pt_mode := "rail", rail_submode := "", name := { text := "InterCity" }
              short_name := { text := "IC" } }
    product_category := none, published_service_name := { text := "IC 1" }
    train_number := "711", attributes := [], origin_text := { text := "Zurich HB" }
    operator_ref := "op1", destination_stop_point_ref := "8501000"
    destination_text := { text := "Lausanne" }, origin_stop_point_ref := "8503000" }

/-- First leg of the three-leg example of spec section 8.4:
timed, departing 10:00 (36000 s), arriving 10:20 (37200 s). -/
def exTimedLeg1 : TimedLeg :=
  { leg_board := { stop_point_ref := "8503000", stop_point_name := { text := "Zurich HB" }
                   name_suffix := none, planned_quay := none, estimated_quay := none
                   service_departure := { timetabled_time := 36000, estimated_time := none }
                   order := 1, expected_departure_occupancies := [] }
    leg_alight := { stop_point_ref := "8507000", stop_point_name := { text := "Bern" }
                    name_suffix := none, planned_quay := none, estimated_quay := none
                    service_arrival := { timetabled_time := 37200, estimated_time := none }
                    order := 2 }
    leg_intermediates := [], service := exService }

/-- Second leg of the example: an untimed transfer of 5 minutes (300 s). -/
def exTransferLeg : TransferLeg :=
  { transfer_type := "walk"
    leg_start := { stop_point_ref := "8507000", name := { text := "Bern" } }
    leg_end := { stop_point_ref := "8507091", name := { text := "Bern Bahnhof" } }
    duration := 300 }

/-- Third leg of the example: timed, departing 10:30 (37800 s), arriving
11:00 (39600 s). -/
def exTimedLeg2 : TimedLeg :=
  { leg_board := { stop_point_ref := "8507091", stop_point_name := { text := "Bern Bahnhof" }
                   name_suffix := none, planned_quay := none, estimated_quay := none
                   service_departure := { timetabled_time := 37800, estimated_time := none }
                   order := 1, expected_departure_occupancies := [] }
    leg_alight := { stop_point_ref := "8501000", stop_point_name := { text := "Lausanne" }
                    name_suffix := none, planned_quay := none, estimated_quay := none
                    service_arrival := { timetabled_time := 39600, estimated_time := none }
                    order := 2 }
    leg_intermediates := [], service := exService }

/-- Example continuous leg (cycling) used to exercise the resolver. -/
def exContinuousLeg : ContinuousLeg :=
  { leg_start := { stop_point_ref := "8507000", name := { text := "Bern" } }
    leg_end := { stop_point_ref := "8507091", name := { text := "Bern Bahnhof" } }
    service := { personal_mode_of_operation := "own", personal_mode := "cycle" }
    duration := 300, length := 900 }

/-- Wire leg wrapping `exTimedLeg1`. -/
def exLeg1 : Leg :=
  { id := 1, duration := 1200, timed_leg := some exTimedLeg1
    transfer_leg := none, continuous_leg := none }

/-- Wire leg wrapping `exTransferLeg`. -/
def exLeg2 : Leg :=
  { id := 2, duration := 300, timed_leg := none
    transfer_leg := some exTransferLeg, continuous_leg := none }

/-- Wire leg wrapping `exTimedLeg2`. -/
def exLeg3 : Leg :=
  { id := 3, duration := 1800, timed_leg := some exTimedLeg2
    transfer_leg := none, continuous_leg := none }

/-- Wire leg with none of the three sub-shapes populated. -/
def exEmptyLeg : Leg :=
  { id := 9, duration := 0, timed_leg := none
    transfer_leg := none, continuous_leg := none }

/-- Wire leg with two sub-shapes populated at once (timed and transfer),
to exercise the resolver precedence. -/
def exDoubleLeg : Leg :=
  { id := 10, duration := 1200, timed_leg := some exTimedLeg1
    transfer_leg := some exTransferLeg, continuous_leg := none }

/-- Wire leg with transfer and continuous populated at once. -/
def exTransferContinuousLeg : Leg :=
  { id := 11, duration := 300, timed_leg := none
    transfer_leg := some exTransferLeg, continuous_leg := some exContinuousLeg }

/-- The three-leg example trip of spec section 8.4, starting at 10:00
(36000 s). -/
def exTrip : Trip :=
  { id := "t1", duration := 3600, start_time := 36000, end_time := 39600
    transfers := 1, distance := none, legs := [exLeg1, exLeg2, exLeg3] }

/-- A wire trip whose second leg carries none of the three sub-shapes. -/
def exErrorTrip : Trip :=
  { id := "t2", duration := 3600, start_time := 36000, end_time := 39600
    transfers := 1, distance := none, legs := [exLeg1, exEmptyLeg, exLeg3] }

/-- A wire trip with an empty leg list (the `Leg` elements are optional on
the wire, so such a trip deserializes fine). -/
def exEmptyLegsTrip : Trip :=
  { id := "t3", duration := 0, start_time := 36000, end_time := 36000
    transfers := 0, distance := none, legs := [] }

/-- Reference simplified trip for the `approx_equal` example: duration
3600 s. -/
def exTripDur3600 : SimplifiedTrip :=
  { legs := [{ departure_id := 8503000, departure_stop := "Zurich HB"
               arrival_id := 8501000, arrival_stop := "Lausanne"
               departure_time := 0, arrival_time := 3600, mode := "rail" }] }

/-- Compared simplified trip for the `approx_equal` example: same endpoint
ids, duration 3650 s. -/
def exTripDur3650 : SimplifiedTrip :=
  { legs := [{ departure_id := 8503000, departure_stop := "Zurich HB"
               arrival_id := 8501000, arrival_stop := "Lausanne"
               departure_time := 0, arrival_time := 3650, mode := "rail" }] }

/-- Expected simplified output for the three-leg example trip: the
transfer leg carries forward the 10:20 arrival and ends at 10:25, the
final timed leg keeps its own 10:30 / 11:00. -/
def exSimplifiedTrip : SimplifiedTrip :=
  { legs :=
    [{ departure_id := 8503000, departure_stop := "Zurich HB", arrival_id := 8507000,
       arrival_stop := "Bern", departure_time := 36000, arrival_time := 37200,
       mode := "InterCity" },
     { departure_id := 8507000, departure_stop := "Bern", arrival_id := 8507091,
       arrival_stop := "Bern Bahnhof", departure_time := 37200, arrival_time := 37500,
       mode := "walk" },
     { departure_id := 8507091, departure_stop := "Bern Bahnhof", arrival_id := 8501000,
       arrival_stop := "Lausanne", departure_time := 37800, arrival_time := 39600,
       mode := "InterCity" }] }

/-- Digit characters are consumed by `decodeLoop` one by one into the
accumulator. -/
lemma decodeLoop_digits_step (ds : List Char) (hd : ∀ c ∈ ds, c.isDigit = true) :
    ∀ (rest acc : List Char) (sign total : Int),
      decodeLoop (ds ++ rest) acc sign total = decodeLoop rest (acc ++ ds) sign total := by
  induction ds with
  | nil => intro rest acc sign total; simp
  | cons c t ih =>
    intro rest acc sign total
    have hc : c.isDigit = true := hd c (by simp)
    have ht : ∀ x ∈ t, x.isDigit = true := fun x hx => hd x (by simp [hx])
    simp only [List.cons_append, decodeLoop, hc, if_true, List.append_eq]
    rw [ih ht rest (acc ++ [c])]
    simp

/-- One complete `<digits><unit>` group adds its contribution to the
running total. -/
lemma decodeLoop_group (ds : List Char) (u : Char) (rest : List Char)
    (hne : ds ≠ []) (hd : ∀ c ∈ ds, c.isDigit = true)
    (hbound : (digitsVal ds : Int) ≤ 2 ^ 63 - 1)
    (hu : u = 'H' ∨ u = 'M' ∨ u = 'S') (sign total : Int) :
    decodeLoop (ds ++ u :: rest) [] sign total =
      decodeLoop rest [] sign (total + sign * (digitsVal ds : Int) * unitSeconds u) := by
  rw [decodeLoop_digits_step ds hd (u :: rest) [] sign total]
  have hu2 : u.isDigit = false := by rcases hu with h | h | h <;> subst h <;> decide
  simp only [List.nil_append, decodeLoop, hu2, Bool.false_eq_true, if_false, hne,
    parseI64Digits, hbound, if_true]
  rcases hu with h | h | h <;> subst h <;> simp [unitSeconds]

/-- Scanning a rendered group list from an empty accumulator yields the
signed sum of the group contributions added to the running total. -/
lemma decodeLoop_groups (gs : List (List Char × Char))
    (h : ∀ g ∈ gs, g.1 ≠ [] ∧ (∀ c ∈ g.1, c.isDigit = true) ∧
      (digitsVal g.1 : Int) ≤ 2 ^ 63 - 1 ∧ (g.2 = 'H' ∨ g.2 = 'M' ∨ g.2 = 'S')) :
    ∀ (sign total : Int),
      decodeLoop (renderGroups gs) [] sign total =
        .ok (total + sign * ((gs.map fun g => (digitsVal g.1 : Int) * unitSeconds g.2).sum)) := by
  induction gs with
  | nil => intro sign total; simp [renderGroups, decodeLoop]
  | cons g t ih =>
    intro sign total
    obtain ⟨h1, h2, h3, h4⟩ := h g (by simp)
    have ht : ∀ x ∈ t, x.1 ≠ [] ∧ (∀ c ∈ x.1, c.isDigit = true) ∧
        (digitsVal x.1 : Int) ≤ 2 ^ 63 - 1 ∧ (x.2 = 'H' ∨ x.2 = 'M' ∨ x.2 = 'S') :=
      fun x hx => h x (List.mem_cons_of_mem _ hx)
    have hr : renderGroups (g :: t) = g.1 ++ (g.2 :: renderGroups t) := by
      simp [renderGroups, renderGroup]
    rw [hr, decodeLoop_group g.1 g.2 (renderGroups t) h1 h2 h3 h4, ih ht]
    congr 1
    simp only [List.map_cons, List.sum_cons]
    ring

/-- C3: `Resolve` fails with `UnkownLegType` exactly when none of the
three optional sub-shapes is populated, and otherwise deterministically
prefers the Timed view, then the Transfer view, then the Continuous
view. -/
theorem resolver_characterization (leg : Leg) :
    (LegType.tryFrom leg = .error .UnkownLegType ↔
      leg.timed_leg = none ∧ leg.transfer_leg = none ∧ leg.continuous_leg = none) ∧
    (∀ e, LegType.tryFrom leg = .error e → e = .UnkownLegType) ∧
    (∀ tl, leg.timed_leg = some tl → LegType.tryFrom leg = .ok (.Timed tl)) ∧
    (∀ t, leg.timed_leg = none → leg.transfer_leg = some t →
      LegType.tryFrom leg = .ok (.Transfer t)) ∧
    (∀ c, leg.timed_leg = none → leg.transfer_leg = none → leg.continuous_leg = some c →
      LegType.tryFrom leg = .ok (.Continuous c)) := by
  cases htl : leg.timed_leg <;> cases htr : leg.transfer_leg <;>
    cases hc : leg.continuous_leg <;>
      simp [LegType.tryFrom, htl, htr, hc]

/-- C3 witness: the resolver evaluated at concrete legs with two
sub-shapes populated (Timed beats Transfer, Transfer beats Continuous)
and with none populated. -/
theorem resolver_characterization_witness :
    LegType.tryFrom exDoubleLeg = .ok (.Timed exTimedLeg1) ∧
    LegType.tryFrom exTransferContinuousLeg = .ok (.Transfer exTransferLeg) ∧
    LegType.tryFrom exEmptyLeg = .error .UnkownLegType :=
  ⟨(resolver_characterization exDoubleLeg).2.2.1 exTimedLeg1 rfl,
   (resolver_characterization exTransferContinuousLeg).2.2.2.1 exTransferLeg rfl rfl,
   (resolver_characterization exEmptyLeg).1.mpr ⟨rfl, rfl, rfl⟩⟩

/-- C7 counterexample: decoding the exact input string `"PT"` does not
fail; it succeeds with a zero duration. -/
theorem decode_pt_counterexample : decodeDuration "PT" = Except.ok 0 := by decide

/-- C7 amended: decoding `"PT"` (the prefix with zero digit-unit groups)
succeeds, returning a zero-second duration, since the grammar admits zero
groups. -/
theorem decode_pt_amended : ∃ n, decodeDuration "PT" = Except.ok n ∧ n = 0 :=
  ⟨0, by decide, rfl⟩

/-- Every unit contributes at least one second. -/
lemma one_le_unitSeconds (u : Char) : 1 ≤ unitSeconds u := by
  unfold unitSeconds
  split
  · norm_num
  · split <;> norm_num

/-- C6 amended: for every duration string made of an optional `-` before
the literal `PT` followed by digit-then-unit groups with unit in
`{H, M, S}` whose total seconds value is at most `9223372036854775`
(the `chrono::Duration` seconds range; this also keeps every group's
parsed value and every intermediate `i64` product and partial sum of the
source in range, since all contributions share one sign), decode returns
the signed sum over groups of `digits × 3600` for `H`, `digits × 60` for
`M` and `digits × 1` for `S`, scaled by `-1` exactly when the input
began with `-PT`, groups being summed in encounter order; in particular
`decode "PT1H30M" = 5400` and `decode "-PT45S" = -45`. -/
theorem duration_codec_grammar :
    (∀ (gs : List (List Char × Char)),
      (∀ g ∈ gs, g.1 ≠ [] ∧ (∀ c ∈ g.1, c.isDigit = true) ∧
        (g.2 = 'H' ∨ g.2 = 'M' ∨ g.2 = 'S')) →
      (gs.map fun g => (digitsVal g.1 : Int) * unitSeconds g.2).sum ≤ 9223372036854775 →
      decodeDuration ⟨'P' :: 'T' :: renderGroups gs⟩ =
        .ok ((gs.map fun g => (digitsVal g.1 : Int) * unitSeconds g.2).sum) ∧
      decodeDuration ⟨'-' :: 'P' :: 'T' :: renderGroups gs⟩ =
        .ok (-((gs.map fun g => (digitsVal g.1 : Int) * unitSeconds g.2).sum))) ∧
    decodeDuration "PT1H30M" = .ok 5400 ∧
    decodeDuration "-PT45S" = .ok (-45) := by
  refine ⟨fun gs hgs hsum => ?_, by decide, by decide⟩
  have hnonneg : ∀ x ∈ (gs.map fun g => (digitsVal g.1 : Int) * unitSeconds g.2), 0 ≤ x := by
    intro x hx
    obtain ⟨g, hg, rfl⟩ := List.mem_map.mp hx
    exact mul_nonneg (Int.ofNat_nonneg _) (le_trans (by norm_num) (one_le_unitSeconds g.2))
  have hold : ∀ g ∈ gs, g.1 ≠ [] ∧ (∀ c ∈ g.1, c.isDigit = true) ∧
      (digitsVal g.1 : Int) ≤ 2 ^ 63 - 1 ∧ (g.2 = 'H' ∨ g.2 = 'M' ∨ g.2 = 'S') := by
    intro g hg
    obtain ⟨h1, h2, h3⟩ := hgs g hg
    refine ⟨h1, h2, ?_, h3⟩
    have hterm : (digitsVal g.1 : Int) * unitSeconds g.2 ≤
        (gs.map fun g => (digitsVal g.1 : Int) * unitSeconds g.2).sum :=
      List.single_le_sum hnonneg _ (List.mem_map_of_mem _ hg)
    have hval : (digitsVal g.1 : Int) ≤ (digitsVal g.1 : Int) * unitSeconds g.2 :=
      le_mul_of_one_le_right (Int.ofNat_nonneg _) (one_le_unitSeconds g.2)
    calc (digitsVal g.1 : Int) ≤ (digitsVal g.1 : Int) * unitSeconds g.2 := hval
      _ ≤ (gs.map fun g => (digitsVal g.1 : Int) * unitSeconds g.2).sum := hterm
      _ ≤ 9223372036854775 := hsum
      _ ≤ 2 ^ 63 - 1 := by norm_num
  constructor
  · have hred : decodeDuration ⟨'P' :: 'T' :: renderGroups gs⟩ =
        decodeLoop (renderGroups gs) [] 1 0 := rfl
    rw [hred, decodeLoop_groups gs hold 1 0]
    simp
  · have hred : decodeDuration ⟨'-' :: 'P' :: 'T' :: renderGroups gs⟩ =
        decodeLoop (renderGroups gs) [] (-1) 0 := rfl
    rw [hred, decodeLoop_groups gs hold (-1) 0]
    simp

/-- C6 witness: the grammar theorem applied to the concrete group lists
of `"PT1H30M"`. -/
theorem duration_codec_grammar_witness :
    decodeDuration ⟨'P' :: 'T' :: renderGroups [(['1'], 'H'), (['3', '0'], 'M')]⟩ =
      .ok (([(['1'], 'H'), (['3', '0'], 'M')].map
        fun g => (digitsVal g.1 : Int) * unitSeconds g.2).sum) :=
  (duration_codec_grammar.1 [(['1'], 'H'), (['3', '0'], 'M')] (by decide) (by decide)).1

/-- C6 counterexample: a single group whose digit value exceeds the
signed 64-bit range makes decoding fail instead of returning the sum the
claim promises. -/
theorem duration_overflow_counterexample :
    decodeDuration "PT99999999999999999999S" = Except.error DurationError.intParse := by
  decide

/-- Folding the digit-accumulation step from an arbitrary start value
scales the start by a power of ten. -/
lemma digitsValFrom (cs : List Char) : ∀ (a : Nat),
    cs.foldl (fun x c => 10 * x + (c.toNat - 48)) a = a * 10 ^ cs.length + digitsVal cs := by
  induction cs with
  | nil => intro a; simp [digitsVal]
  | cons c t ih =>
    intro a
    have h1 : digitsVal (c :: t) =
        t.foldl (fun x c2 => 10 * x + (c2.toNat - 48)) (c.toNat - 48) := by
      simp [digitsVal]
    rw [List.foldl_cons, ih (10 * a + (c.toNat - 48)), h1, ih (c.toNat - 48)]
    simp [List.length_cons, pow_succ]
    ring

/-- Value of a concatenation of digit strings. -/
lemma digitsVal_append (xs ys : List Char) :
    digitsVal (xs ++ ys) = digitsVal xs * 10 ^ ys.length + digitsVal ys := by
  show (xs ++ ys).foldl (fun x c => 10 * x + (c.toNat - 48)) 0 = _
  rw [List.foldl_append]
  exact digitsValFrom ys (digitsVal xs)

/-- Leading zero characters contribute no value. -/
lemma digitsVal_replicate_zero (k : Nat) : digitsVal (List.replicate k '0') = 0 := by
  induction k with
  | zero => rfl
  | succ n ih =>
    rw [List.replicate_succ]
    show (List.replicate n '0').foldl (fun x c => 10 * x + (c.toNat - 48))
      (10 * 0 + (('0' : Char).toNat - 48)) = 0
    have h0 : 10 * 0 + (('0' : Char).toNat - 48) = 0 := by decide
    rw [h0]
    exact ih

/-- Folding a reversed little-endian digit list computes `Nat.ofDigits`. -/
lemma foldlRev_ofDigits (L : List Nat) : ∀ (a : Nat),
    L.reverse.foldl (fun x d => 10 * x + d) a = a * 10 ^ L.length + Nat.ofDigits 10 L := by
  induction L with
  | nil => intro a; simp [Nat.ofDigits_nil]
  | cons d t ih =>
    intro a
    rw [List.reverse_cons, List.foldl_append, ih a]
    simp [Nat.ofDigits_cons, List.length_cons, pow_succ]
    ring

/-- Correctness of the decimal rendering: its digit value is the rendered
number. -/
lemma digitsVal_natDecimalDigits (n : Nat) : digitsVal (natDecimalDigits n) = n := by
  by_cases h : n = 0
  · subst h; decide
  · unfold natDecimalDigits digitsVal
    rw [if_neg h, List.foldl_map]
    rw [List.foldl_ext _ (fun (x : Nat) (d : Nat) => 10 * x + d) 0 ?hext]
    case hext =>
      intro a d hd
      have hd10 : d < 10 := Nat.digits_lt_base (by norm_num) (List.mem_reverse.mp hd)
      have hch : (Char.ofNat (48 + d)).toNat - 48 = d := by interval_cases d <;> decide
      rw [hch]
    rw [foldlRev_ofDigits]
    simp [Nat.ofDigits_digits]

/-- The decimal rendering of `n < 10 ^ k` (with `k ≥ 1`) has at most `k`
characters. -/
lemma natDecimalDigits_len_le (n k : Nat) (h : n < 10 ^ k) (hk : 1 ≤ k) :
    (natDecimalDigits n).length ≤ k := by
  unfold natDecimalDigits
  by_cases h0 : n = 0
  · simp [h0]; omega
  · rw [if_neg h0]
    simp only [List.length_map, List.length_reverse]
    rw [Nat.digits_len 10 n (by norm_num) h0]
    have := (Nat.lt_pow_iff_log_lt (by norm_num : 1 < 10) h0).mp h
    omega

/-- Every character of a decimal rendering is an ASCII digit. -/
lemma natDecimalDigits_all_digits (n : Nat) : ∀ c ∈ natDecimalDigits n, c.isDigit = true := by
  unfold natDecimalDigits
  by_cases h : n = 0
  · rw [if_pos h]
    intro c hc
    simp only [List.mem_singleton] at hc
    subst hc
    decide
  · rw [if_neg h]
    intro c hc
    simp only [List.mem_map, List.mem_reverse] at hc
    obtain ⟨d, hd, rfl⟩ := hc
    have hd10 : d < 10 := Nat.digits_lt_base (by norm_num) hd
    interval_cases d <;> decide

/-- A decimal rendering is never empty. -/
lemma natDecimalDigits_ne_nil (n : Nat) : natDecimalDigits n ≠ [] := by
  unfold natDecimalDigits
  by_cases h : n = 0
  · simp [h]
  · rw [if_neg h]
    simp [Nat.digits_ne_nil_iff_ne_zero, h]

/-- On an all-digit character list the sign splitter strips nothing. -/
lemma splitSign_digits (cs : List Char) (h : ∀ x ∈ cs, x.isDigit = true) :
    splitSign cs = (1, cs) := by
  cases cs with
  | nil => rfl
  | cons c t =>
    have hc : c.isDigit = true := h c (by simp)
    have h1 : c ≠ '-' := by intro he; rw [he] at hc; exact absurd hc (by decide)
    have h2 : c ≠ '+' := by intro he; rw [he] at hc; exact absurd hc (by decide)
    simp [splitSign, h1, h2]

/-- Parsing an in-range all-digit string yields its digit value. -/
lemma parseIntRange_digits (lo hi : Int) (cs : List Char) (hne : cs ≠ [])
    (h : ∀ x ∈ cs, x.isDigit = true) (hlo : lo ≤ (digitsVal cs : Int))
    (hhi : (digitsVal cs : Int) ≤ hi) :
    parseIntRange lo hi ⟨cs⟩ = some ((digitsVal cs : Int)) := by
  unfold parseIntRange
  have htl : (⟨cs⟩ : String).toList = cs := rfl
  rw [htl, splitSign_digits cs h]
  have hall : cs.all Char.isDigit = true := List.all_eq_true.mpr h
  rw [if_pos ⟨hne, hall⟩]
  simp only [one_mul]
  rw [if_pos ⟨hlo, hhi⟩]

/-- `i32` parsing of an all-digit string within the positive `i32`
range. -/
lemma parseI32_digits (cs : List Char) (hne : cs ≠ [])
    (h : ∀ x ∈ cs, x.isDigit = true) (hhi : (digitsVal cs : Int) ≤ 2 ^ 31 - 1) :
    parseI32 ⟨cs⟩ = some ((digitsVal cs : Int)) :=
  parseIntRange_digits _ _ cs hne h
    (le_trans (by norm_num) (Int.ofNat_nonneg _)) hhi

set_option maxHeartbeats 1600000 in
/-- Every table entry is a two-digit transport code. -/
lemma iso_to_uic_bounds (s : String) (u : Int) (h : iso_to_uic s = some u) :
    10 ≤ u ∧ u ≤ 99 := by
  unfold iso_to_uic at h
  split at h <;> first
    | exact Option.noConfusion h
    | (injection h with h2; omega)

/-- Rendering the transport code followed by the zero-padded local number
parses back to the combined station code. -/
lemma didok_concat (uic : Int) (num : Nat) (hu1 : 10 ≤ uic) (hu2 : uic ≤ 99)
    (hnum : num ≤ 99999) :
    parseI32 (intToDecimalString uic ++ formatI32Pad5 (num : Int)) =
      some (uic * 100000 + (num : Int)) := by
  have hpos : ¬ uic < 0 := by omega
  have hnn : ¬ ((num : Int) < 0) := by omega
  rw [intToDecimalString, if_neg hpos, formatI32Pad5, if_neg hnn, Int.natAbs_ofNat]
  have huv : (uic.natAbs : Int) = uic := Int.natAbs_of_nonneg (by omega)
  have hu1n : 10 ≤ uic.natAbs := by omega
  have hu2n : uic.natAbs ≤ 99 := by omega
  have hL : (natDecimalDigits num).length ≤ 5 :=
    natDecimalDigits_len_le num 5 (by omega) (by norm_num)
  have hcat : natToDecimalString uic.natAbs ++ padZeros 5 (natToDecimalString num) =
      ⟨natDecimalDigits uic.natAbs ++
        (List.replicate (5 - (natDecimalDigits num).length) '0' ++ natDecimalDigits num)⟩ :=
    rfl
  rw [hcat]
  have hdigits : ∀ x ∈ natDecimalDigits uic.natAbs ++
      (List.replicate (5 - (natDecimalDigits num).length) '0' ++ natDecimalDigits num),
      x.isDigit = true := by
    intro x hx
    rcases List.mem_append.mp hx with hx1 | hx2
    · exact natDecimalDigits_all_digits _ x hx1
    · rcases List.mem_append.mp hx2 with hx3 | hx4
      · rw [List.eq_of_mem_replicate hx3]; decide
      · exact natDecimalDigits_all_digits _ x hx4
  have hne : natDecimalDigits uic.natAbs ++
      (List.replicate (5 - (natDecimalDigits num).length) '0' ++ natDecimalDigits num) ≠ [] := by
    intro hcontra
    exact natDecimalDigits_ne_nil uic.natAbs (List.append_eq_nil.mp hcontra).1
  have hvalpad : digitsVal
      (List.replicate (5 - (natDecimalDigits num).length) '0' ++ natDecimalDigits num) = num := by
    rw [digitsVal_append, digitsVal_replicate_zero, digitsVal_natDecimalDigits]
    ring
  have hlenpad : (List.replicate (5 - (natDecimalDigits num).length) '0' ++
      natDecimalDigits num).length = 5 := by
    simp only [List.length_append, List.length_replicate]
    omega
  have hval : digitsVal (natDecimalDigits uic.natAbs ++
      (List.replicate (5 - (natDecimalDigits num).length) '0' ++ natDecimalDigits num)) =
      uic.natAbs * 100000 + num := by
    rw [digitsVal_append, hvalpad, hlenpad, digitsVal_natDecimalDigits]
    norm_num
  have hbound : (digitsVal (natDecimalDigits uic.natAbs ++
      (List.replicate (5 - (natDecimalDigits num).length) '0' ++ natDecimalDigits num)) : Int) ≤
      2 ^ 31 - 1 := by
    rw [hval]
    have h9 : uic.natAbs * 100000 + num ≤ 9999999 := by
      have := Nat.mul_le_mul_right 100000 hu2n
      omega
    have h9c : ((uic.natAbs * 100000 + num : Nat) : Int) ≤ (9999999 : Int) := by
      exact_mod_cast h9
    exact le_trans h9c (by norm_num)
  rw [parseI32_digits _ hne hdigits hbound, hval]
  congr 1
  rw [Nat.cast_add, Nat.cast_mul, huv]
  norm_num

/-- C4 amended: a reference that parses directly as an `i32` is returned
unchanged; otherwise splitting on `:` must yield at least 4 parts or the
normalizer fails with `MalformedSloid`; with at least 4 parts, an unmapped
part 0 fails with `FailedToConvertIsoCode`, and a mapped part 0 with a
digit-string part 3 of value at most `99999` yields the integer formed by
the two-digit transport code followed by part 3 zero-padded to 5 digits
(larger part 3 values can exceed the `i32` range and then fail, see the
counterexample); in particular `"8503000"` maps to itself and
`"ch:1:sloid:07000:0"` maps to `8507000`. -/
theorem normalizer_characterization :
    (∀ s n, parseI32 s = some n → stopRefToId s = .ok n) ∧
    (∀ s, parseI32 s = none → (splitOnColon s).length < 4 →
      stopRefToId s = .error (.MalformedSloid s)) ∧
    (∀ (s p0 p1 p2 p3 : String) (rest : List String), parseI32 s = none →
      splitOnColon s = p0 :: p1 :: p2 :: p3 :: rest →
      iso_to_uic (strToLower p0) = none →
      stopRefToId s = .error (.FailedToConvertIsoCode (strToLower p0))) ∧
    (∀ (s p0 p1 p2 p3 : String) (rest : List String) (uic : Int) (num : Nat),
      parseI32 s = none →
      splitOnColon s = p0 :: p1 :: p2 :: p3 :: rest →
      iso_to_uic (strToLower p0) = some uic →
      p3.data ≠ [] → (∀ c ∈ p3.data, c.isDigit = true) →
      digitsVal p3.data = num → num ≤ 99999 →
      stopRefToId s = .ok (uic * 100000 + (num : Int))) ∧
    stopRefToId "8503000" = .ok 8503000 ∧
    stopRefToId "ch:1:sloid:07000:0" = .ok 8507000 := by
  have hdirect : ∀ s n, parseI32 s = some n → stopRefToId s = .ok n := by
    intro s n h
    unfold stopRefToId
    rw [h]
  have hkey : ∀ s, parseI32 s = none → stopRefToId s = sloid_to_didok s := by
    intro s h
    unfold stopRefToId
    rw [h]
  have hshort : ∀ s, parseI32 s = none → (splitOnColon s).length < 4 →
      stopRefToId s = .error (.MalformedSloid s) := by
    intro s h hlen
    rw [hkey s h]
    unfold sloid_to_didok
    match hsp : splitOnColon s with
    | [] => rfl
    | [_] => rfl
    | [_, _] => rfl
    | [_, _, _] => rfl
    | a :: b :: c :: d :: e =>
      rw [hsp] at hlen
      simp only [List.length_cons] at hlen
      omega
  have hcountry : ∀ (s p0 p1 p2 p3 : String) (rest : List String), parseI32 s = none →
      splitOnColon s = p0 :: p1 :: p2 :: p3 :: rest →
      iso_to_uic (strToLower p0) = none →
      stopRefToId s = .error (.FailedToConvertIsoCode (strToLower p0)) := by
    intro s p0 p1 p2 p3 rest h hsp hiso
    rw [hkey s h]
    unfold sloid_to_didok
    rw [hsp]
    simp only [hiso]
  have hformula : ∀ (s p0 p1 p2 p3 : String) (rest : List String) (uic : Int) (num : Nat),
      parseI32 s = none →
      splitOnColon s = p0 :: p1 :: p2 :: p3 :: rest →
      iso_to_uic (strToLower p0) = some uic →
      p3.data ≠ [] → (∀ c ∈ p3.data, c.isDigit = true) →
      digitsVal p3.data = num → num ≤ 99999 →
      stopRefToId s = .ok (uic * 100000 + (num : Int)) := by
    intro s p0 p1 p2 p3 rest uic num h hsp hiso hne hd hval hb
    rw [hkey s h]
    unfold sloid_to_didok
    rw [hsp]
    simp only [hiso]
    have hvb : (digitsVal p3.data : Int) ≤ 2 ^ 31 - 1 := by
      rw [hval]
      have hbc : ((num : Nat) : Int) ≤ (99999 : Int) := by exact_mod_cast hb
      exact le_trans hbc (by norm_num)
    have hp3 : parseI32 p3 = some ((num : Int)) := by
      have hx : parseI32 ⟨p3.data⟩ = some ((digitsVal p3.data : Int)) :=
        parseI32_digits p3.data hne hd hvb
      rw [hval] at hx
      exact hx
    obtain ⟨hu1, hu2⟩ := iso_to_uic_bounds _ _ hiso
    simp only [hp3, didok_concat uic num hu1 hu2 hb]
  refine ⟨hdirect, hshort, hcountry, hformula, by decide, ?_⟩
  have := hformula "ch:1:sloid:07000:0" "ch" "1" "sloid" "07000" ["0"] 85 7000
    (by decide) (by decide) (by decide) (by decide) (by decide) (by decide) (by decide)
  simpa using this

/-- C4 witness: the padding formula applied to the concrete reference
`"ch:1:sloid:07000:0"`. -/
theorem normalizer_characterization_witness :
    stopRefToId "ch:1:sloid:07000:0" = Except.ok (85 * 100000 + 7000) :=
  normalizer_characterization.2.2.2.1 "ch:1:sloid:07000:0" "ch" "1" "sloid" "07000" ["0"]
    85 7000 (by decide) (by decide) (by decide) (by decide) (by decide) (by decide) (by decide)

/-- C4 counterexample: a numeric part 3 whose value exceeds the `i32`
range makes the normalizer fail with `ParseInt` instead of producing the
concatenated code the claim promises. -/
theorem normalizer_overflow_counterexample :
    stopRefToId "ch:1:sloid:9999999999:0" = Except.error OjpError.ParseInt := by
  decide

/-- C5 amended: with at least 4 parts and a recognized country code, a
part 3 that does not parse as an `i32` makes the normalizer fail with the
`ParseInt` error, an error kind distinct from the `MalformedSloid` error
of the too-few-parts case. -/
theorem nonnumeric_part3_error (s p0 p1 p2 p3 : String) (rest : List String) (uic : Int)
    (h1 : parseI32 s = none) (h2 : splitOnColon s = p0 :: p1 :: p2 :: p3 :: rest)
    (h3 : iso_to_uic (strToLower p0) = some uic) (h4 : parseI32 p3 = none) :
    stopRefToId s = .error .ParseInt ∧
    ∀ t, (OjpError.ParseInt : OjpError) ≠ OjpError.MalformedSloid t := by
  constructor
  · have hkey : stopRefToId s = sloid_to_didok s := by
      unfold stopRefToId
      rw [h1]
    rw [hkey]
    unfold sloid_to_didok
    rw [h2]
    simp only [h3, h4]
  · intro t he
    exact OjpError.noConfusion he

/-- C5 witness: the non-numeric part 3 of `"ch:1:sloid:xx:0"`. -/
theorem nonnumeric_part3_error_witness :
    stopRefToId "ch:1:sloid:xx:0" = Except.error OjpError.ParseInt :=
  (nonnumeric_part3_error "ch:1:sloid:xx:0" "ch" "1" "sloid" "xx" ["0"] 85
    (by decide) (by decide) (by decide) (by decide)).1

/-- C5 counterexample: a non-numeric part 3 produces `ParseInt`, not the
`MalformedSloid` error class the claim names. -/
theorem nonnumeric_part3_counterexample :
    stopRefToId "ch:1:sloid:xx:0" = Except.error OjpError.ParseInt ∧
    stopRefToId "ch:1:sloid:xx:0" ≠ Except.error (OjpError.MalformedSloid "ch:1:sloid:xx:0") := by
  exact ⟨by decide, by decide⟩

/-- A resolved view without an own arrival time also has no own departure
time (both are present exactly on timed legs). -/
lemma legType_arrival_none_departure_none (v : LegType) (h : v.arrival_time = none) :
    v.departure_time = none := by
  cases v <;> simp [LegType.arrival_time, LegType.departure_time] at *

/-- Characterization of a successful per-leg conversion. -/
lemma convertLeg_ok (prev : Int) (leg : Leg) (sl : SimplifiedLeg) (p2 : Int)
    (h : convertLeg prev leg = .ok (sl, p2)) :
    ∃ v, LegType.tryFrom leg = .ok v ∧
      sl.departure_time = v.departure_time.getD prev ∧
      sl.arrival_time = v.arrival_time.getD (sl.departure_time + v.duration) ∧
      p2 = sl.arrival_time := by
  unfold convertLeg at h
  cases htf : LegType.tryFrom leg with
  | error e => simp only [htf] at h; exact Except.noConfusion h
  | ok v =>
    simp only [htf] at h
    cases hd : v.departure_id with
    | error e => simp only [hd] at h; exact Except.noConfusion h
    | ok did =>
      simp only [hd] at h
      cases ha : v.arrival_id with
      | error e => simp only [ha] at h; exact Except.noConfusion h
      | ok aid =>
        simp only [ha, Except.ok.injEq, Prod.mk.injEq] at h
        obtain ⟨hsl, hp2⟩ := h
        refine ⟨v, rfl, ?_, ?_, ?_⟩
        · rw [← hsl]
        · rw [← hsl]
          cases hat : v.arrival_time with
          | some a => simp
          | none =>
            have hdt : v.departure_time = none := legType_arrival_none_departure_none v hat
            simp [hat, hdt]
        · rw [← hsl, ← hp2]

/-- A per-leg conversion fails with `e` exactly when the leg's own
fallible steps produce `e` (independently of the accumulator). -/
lemma convertLeg_error (prev : Int) (leg : Leg) (e : OjpError) :
    convertLeg prev leg = .error e ↔ legStepError leg = some e := by
  unfold convertLeg legStepError
  cases htf : LegType.tryFrom leg with
  | error e2 => simp
  | ok v =>
    cases hd : v.departure_id with
    | error e2 => simp [hd]
    | ok did =>
      cases ha : v.arrival_id with
      | error e2 => simp [hd, ha]
      | ok aid => simp [hd, ha]

/-- A leg with no failing step converts successfully from any
accumulator value. -/
lemma convertLeg_isOk (prev : Int) (leg : Leg) (h : legStepError leg = none) :
    ∃ sl p2, convertLeg prev leg = .ok (sl, p2) := by
  cases hc : convertLeg prev leg with
  | error e =>
    rw [(convertLeg_error prev leg e).mp hc] at h
    exact absurd h (by simp)
  | ok pr =>
    refine ⟨pr.1, pr.2, ?_⟩
    rfl

/-- The leg collection preserves length on success. -/
lemma convertLegs_length : ∀ (legs : List Leg) (prev : Int) (out : List SimplifiedLeg),
    convertLegs prev legs = .ok out → out.length = legs.length := by
  intro legs
  induction legs with
  | nil =>
    intro prev out h
    unfold convertLegs at h
    simp only [Except.ok.injEq] at h
    subst h
    rfl
  | cons leg rest ih =>
    intro prev out h
    unfold convertLegs at h
    cases hc : convertLeg prev leg with
    | error e => simp only [hc] at h; exact Except.noConfusion h
    | ok pr =>
      obtain ⟨sl, np⟩ := pr
      simp only [hc] at h
      cases hr : convertLegs np rest with
      | error e => simp only [hr] at h; exact Except.noConfusion h
      | ok sls =>
        simp only [hr, Except.ok.injEq] at h
        rw [← h]
        simp [ih np sls hr]

/-- On success the output of the trip simplifier is the collected leg
list. -/
lemma tryFromTrip_ok (t : Trip) (st : SimplifiedTrip)
    (h : SimplifiedTrip.tryFromTrip t = .ok st) :
    convertLegs t.start_time t.legs = .ok st.legs := by
  unfold SimplifiedTrip.tryFromTrip at h
  cases hc : convertLegs t.start_time t.legs with
  | error e => simp only [hc] at h; exact Except.noConfusion h
  | ok l =>
    simp only [hc, Except.ok.injEq] at h
    rw [← h]

/-- Index-wise characterization of the accumulator fold: leg `i` of the
output takes its departure from the resolved view when present and from
the accumulator (the trip start for `i = 0`, the previous output leg's
arrival otherwise) when absent, and its arrival from the view when
present and from its own departure plus the view's duration when
absent. -/
lemma convertLegs_get : ∀ (legs : List Leg) (prev : Int) (out : List SimplifiedLeg),
    convertLegs prev legs = .ok out →
    ∀ (i : Nat) (hi : i < legs.length) (hi2 : i < out.length),
      ∃ v, LegType.tryFrom (legs.get ⟨i, hi⟩) = .ok v ∧
        (out.get ⟨i, hi2⟩).departure_time = v.departure_time.getD
          (if i = 0 then prev else (out.get ⟨i - 1, by omega⟩).arrival_time) ∧
        (out.get ⟨i, hi2⟩).arrival_time = v.arrival_time.getD
          ((out.get ⟨i, hi2⟩).departure_time + v.duration) := by
  intro legs
  induction legs with
  | nil =>
    intro prev out h i hi
    exact absurd hi (by simp)
  | cons leg rest ih =>
    intro prev out h i hi hi2
    unfold convertLegs at h
    cases hc : convertLeg prev leg with
    | error e => simp only [hc] at h; exact Except.noConfusion h
    | ok pr =>
      obtain ⟨sl, np⟩ := pr
      simp only [hc] at h
      cases hr : convertLegs np rest with
      | error e => simp only [hr] at h; exact Except.noConfusion h
      | ok sls =>
        simp only [hr, Except.ok.injEq] at h
        subst h
        obtain ⟨v, hv, hdep, harr, hp2⟩ := convertLeg_ok prev leg sl np hc
        cases i with
        | zero =>
          refine ⟨v, by simpa using hv, ?_, ?_⟩
          · simpa using hdep
          · simpa using harr
        | succ j =>
          have hj : j < rest.length := by simpa using hi
          have hj2 : j < sls.length := by simpa using hi2
          obtain ⟨w, hw, hwd, hwa⟩ := ih np sls hr j hj hj2
          refine ⟨w, by simpa using hw, ?_, ?_⟩
          · cases j with
            | zero =>
              have : np = sl.arrival_time := hp2
              simpa [this] using hwd
            | succ k =>
              simpa using hwd
          · simpa using hwa

/-- When the first failing leg (in order) fails with `e`, the whole
collection fails with `e`. -/
lemma convertLegs_error : ∀ (legs : List Leg) (prev : Int) (i : Nat) (hi : i < legs.length)
    (e : OjpError), legStepError (legs.get ⟨i, hi⟩) = some e →
    (∀ (j : Nat) (hj : j < i), legStepError (legs.get ⟨j, by omega⟩) = none) →
    convertLegs prev legs = .error e := by
  intro legs
  induction legs with
  | nil => intro prev i hi; exact absurd hi (by simp)
  | cons leg rest ih =>
    intro prev i hi e hfail hfirst
    cases i with
    | zero =>
      have hstep : convertLeg prev leg = .error e :=
        (convertLeg_error prev leg e).mpr (by simpa using hfail)
      unfold convertLegs
      rw [hstep]
    | succ j =>
      have h0 : legStepError leg = none := by
        have := hfirst 0 (Nat.succ_pos j)
        simpa using this
      obtain ⟨sl, np, hok⟩ := convertLeg_isOk prev leg h0
      unfold convertLegs
      simp only [hok]
      have hj : j < rest.length := by simpa using hi
      have hfail2 : legStepError (rest.get ⟨j, hj⟩) = some e := by simpa using hfail
      have hfirst2 : ∀ (k : Nat) (hk : k < j),
          legStepError (rest.get ⟨k, by omega⟩) = none := by
        intro k hk
        have := hfirst (k + 1) (by omega)
        simpa using this
      simp only [ih np j hj e hfail2 hfirst2]

/-- C1: the simplifier threads the `prev_arr_time` accumulator strictly
left-to-right, starting at the trip's start time: each output leg's
departure time is the resolved view's own departure time when present
(timed legs) and the accumulated previous arrival otherwise, its arrival
time is the view's own arrival time when present and its departure time
plus the view's duration otherwise, and the accumulator becomes that
arrival time; on the three-leg example trip the transfer leg gets
departure 10:20 and arrival 10:25 while the final timed leg keeps
10:30 / 11:00, the gap uncorrected. -/
theorem simplifier_fold_characterization :
    (∀ (t : Trip) (st : SimplifiedTrip), SimplifiedTrip.tryFromTrip t = .ok st →
      st.legs.length = t.legs.length ∧
      ∀ (i : Nat) (hi : i < t.legs.length) (hi2 : i < st.legs.length),
        ∃ v, LegType.tryFrom (t.legs.get ⟨i, hi⟩) = .ok v ∧
          (st.legs.get ⟨i, hi2⟩).departure_time = v.departure_time.getD
            (if i = 0 then t.start_time else
              (st.legs.get ⟨i - 1, by omega⟩).arrival_time) ∧
          (st.legs.get ⟨i, hi2⟩).arrival_time = v.arrival_time.getD
            ((st.legs.get ⟨i, hi2⟩).departure_time + v.duration)) ∧
    SimplifiedTrip.tryFromTrip exTrip = .ok exSimplifiedTrip := by
  refine ⟨fun t st h => ?_, by decide⟩
  have hok := tryFromTrip_ok t st h
  exact ⟨convertLegs_length t.legs t.start_time st.legs hok,
    convertLegs_get t.legs t.start_time st.legs hok⟩

/-- C1 witness: the fold characterization applied to the concrete
three-leg example trip and its simplified output. -/
theorem simplifier_fold_characterization_witness :
    exSimplifiedTrip.legs.length = exTrip.legs.length :=
  (simplifier_fold_characterization.1 exTrip exSimplifiedTrip (by decide)).1

/-- C2: when leg `i` is the first leg (in order) whose per-leg pipeline
fails, the whole simplification returns exactly that error and no
simplified trip is produced. -/
theorem simplifier_fail_fast (t : Trip) (i : Nat) (hi : i < t.legs.length) (e : OjpError)
    (hfail : legStepError (t.legs.get ⟨i, hi⟩) = some e)
    (hfirst : ∀ (j : Nat) (hj : j < i), legStepError (t.legs.get ⟨j, by omega⟩) = none) :
    SimplifiedTrip.tryFromTrip t = .error e ∧
    ∀ st, SimplifiedTrip.tryFromTrip t ≠ .ok st := by
  have hcl : convertLegs t.start_time t.legs = .error e :=
    convertLegs_error t.legs t.start_time i hi e hfail hfirst
  have hmain : SimplifiedTrip.tryFromTrip t = .error e := by
    unfold SimplifiedTrip.tryFromTrip
    rw [hcl]
  exact ⟨hmain, fun st hst => by rw [hmain] at hst; exact Except.noConfusion hst⟩

/-- C2 witness: the fail-fast theorem applied to a trip whose second leg
carries no sub-shape. -/
theorem simplifier_fail_fast_witness :
    SimplifiedTrip.tryFromTrip exErrorTrip = Except.error OjpError.UnkownLegType :=
  (simplifier_fail_fast exErrorTrip 1 (by decide) OjpError.UnkownLegType (by decide)
    (by
      intro j hj
      have hj0 : j = 0 := by omega
      subst hj0
      show legStepError exLeg1 = none
      decide)).1

/-- C8 counterexample: a wire trip with an empty leg list simplifies
successfully to a `SimplifiedTrip` whose leg sequence is empty, so not
every produced trip has a non-empty leg sequence. -/
theorem empty_trip_counterexample :
    SimplifiedTrip.tryFromTrip exEmptyLegsTrip = Except.ok (SimplifiedTrip.mk []) ∧
    (SimplifiedTrip.mk []).legs = [] := by
  exact ⟨by decide, rfl⟩

/-- C8 amended: simplification preserves the leg count, so the output of
a wire trip with at least one leg is non-empty, and on such outputs the
overall departure and arrival times, endpoint ids and stop names are
derived from the first and last leg, the duration being the last leg's
arrival time minus the first leg's departure time. -/
theorem simplified_trip_derived_accessors (t : Trip) (st : SimplifiedTrip)
    (h : SimplifiedTrip.tryFromTrip t = .ok st) (hne : t.legs ≠ []) :
    st.legs.length = t.legs.length ∧
    ∃ hne2 : st.legs ≠ [],
      st.departure_time hne2 = (st.legs.head hne2).departure_time ∧
      st.arrival_time hne2 = (st.legs.getLast hne2).arrival_time ∧
      st.departure_id hne2 = (st.legs.head hne2).departure_id ∧
      st.arrival_id hne2 = (st.legs.getLast hne2).arrival_id ∧
      st.departure_stop hne2 = (st.legs.head hne2).departure_stop ∧
      st.arrival_stop hne2 = (st.legs.getLast hne2).arrival_stop ∧
      st.duration hne2 = st.arrival_time hne2 - st.departure_time hne2 := by
  have hlen := convertLegs_length t.legs t.start_time st.legs (tryFromTrip_ok t st h)
  have hne2 : st.legs ≠ [] := by
    intro hc
    rw [hc] at hlen
    exact hne (List.length_eq_zero.mp hlen.symm)
  exact ⟨hlen, hne2, rfl, rfl, rfl, rfl, rfl, rfl, rfl⟩

/-- C8 witness: the derived-accessor theorem applied to the three-leg
example trip. -/
theorem simplified_trip_derived_accessors_witness :
    exSimplifiedTrip.legs.length = exTrip.legs.length :=
  (simplified_trip_derived_accessors exTrip exSimplifiedTrip (by decide) (by decide)).1

/-- C9: for trips with positive durations, `approx_equal` returns true
exactly when the two trips share departure and arrival ids, their
durations differ by no more than `tolerance` of `b`'s duration, and the
departure-time and arrival-time offsets, each relative to `a`'s duration,
do not exceed `tolerance` (the offsets are signed, as in the source); in
particular with identical endpoint ids and durations 3600 s versus
3650 s the trips are equal under tolerance `0.02` and unequal under
`0.01`. -/
theorem approx_equal_characterization :
    (∀ (a b : SimplifiedTrip) (ha : a.legs ≠ []) (hb : b.legs ≠ []) (tolerance : Rat),
      0 < a.duration ha → 0 < b.duration hb →
      (a.approx_equal b ha hb tolerance = true ↔
        (a.departure_id ha = b.departure_id hb ∧ a.arrival_id ha = b.arrival_id hb ∧
         |(a.duration ha : Rat) - (b.duration hb : Rat)| ≤ tolerance * (b.duration hb : Rat) ∧
         (a.departure_time ha : Rat) - (b.departure_time hb : Rat) ≤
           tolerance * (a.duration ha : Rat) ∧
         (a.arrival_time ha : Rat) - (b.arrival_time hb : Rat) ≤
           tolerance * (a.duration ha : Rat)))) ∧
    SimplifiedTrip.approx_equal exTripDur3600 exTripDur3650 (by decide) (by decide) (2 / 100) =
      true ∧
    SimplifiedTrip.approx_equal exTripDur3600 exTripDur3650 (by decide) (by decide) (1 / 100) =
      false := by
  have hgen : ∀ (a b : SimplifiedTrip) (ha : a.legs ≠ []) (hb : b.legs ≠ []) (tolerance : Rat),
      0 < a.duration ha → 0 < b.duration hb →
      (a.approx_equal b ha hb tolerance = true ↔
        (a.departure_id ha = b.departure_id hb ∧ a.arrival_id ha = b.arrival_id hb ∧
         |(a.duration ha : Rat) - (b.duration hb : Rat)| ≤ tolerance * (b.duration hb : Rat) ∧
         (a.departure_time ha : Rat) - (b.departure_time hb : Rat) ≤
           tolerance * (a.duration ha : Rat) ∧
         (a.arrival_time ha : Rat) - (b.arrival_time hb : Rat) ≤
           tolerance * (a.duration ha : Rat))) := by
    intro a b ha hb tol hda hdb
    have hdaQ : (0 : Rat) < (a.duration ha : Rat) := by exact_mod_cast hda
    have hdbQ : (0 : Rat) < (b.duration hb : Rat) := by exact_mod_cast hdb
    unfold SimplifiedTrip.approx_equal
    constructor
    · intro h
      by_cases h1 : a.departure_id ha ≠ b.departure_id hb ∨ a.arrival_id ha ≠ b.arrival_id hb
      · rw [if_pos h1] at h; exact absurd h (by simp)
      · rw [if_neg h1] at h
        push_neg at h1
        by_cases h2 : |(a.duration ha : Rat) - (b.duration hb : Rat)| / (b.duration hb : Rat)
            > tol
        · rw [if_pos h2] at h; exact absurd h (by simp)
        · rw [if_neg h2] at h
          by_cases h3 : ((a.departure_time ha : Rat) - (b.departure_time hb : Rat)) /
                (a.duration ha : Rat) > tol ∨
              ((a.arrival_time ha : Rat) - (b.arrival_time hb : Rat)) /
                (a.duration ha : Rat) > tol
          · rw [if_pos h3] at h; exact absurd h (by simp)
          · push_neg at h2 h3
            refine ⟨h1.1, h1.2, ?_, ?_, ?_⟩
            · exact (div_le_iff₀ hdbQ).mp h2
            · exact (div_le_iff₀ hdaQ).mp h3.1
            · exact (div_le_iff₀ hdaQ).mp h3.2
    · rintro ⟨hdep, harr, hdur, hoff1, hoff2⟩
      rw [if_neg (by push_neg; exact ⟨hdep, harr⟩)]
      rw [if_neg (by push_neg; exact (div_le_iff₀ hdbQ).mpr hdur)]
      rw [if_neg (by
        push_neg
        constructor
        · exact (div_le_iff₀ hdaQ).mpr hoff1
        · exact (div_le_iff₀ hdaQ).mpr hoff2)]
  refine ⟨hgen, ?_, ?_⟩
  · norm_num [SimplifiedTrip.approx_equal, SimplifiedTrip.duration,
      SimplifiedTrip.departure_time, SimplifiedTrip.arrival_time,
      SimplifiedTrip.departure_id, SimplifiedTrip.arrival_id,
      exTripDur3600, exTripDur3650, abs_le]
  · norm_num [SimplifiedTrip.approx_equal, SimplifiedTrip.duration,
      SimplifiedTrip.departure_time, SimplifiedTrip.arrival_time,
      SimplifiedTrip.departure_id, SimplifiedTrip.arrival_id,
      exTripDur3600, exTripDur3650, abs_le]

/-- C9 witness: the characterization applied to the two concrete trips of
durations 3600 s and 3650 s at tolerance `0.02`. -/
theorem approx_equal_characterization_witness :
    SimplifiedTrip.approx_equal exTripDur3600 exTripDur3650 (by decide) (by decide) (2 / 100) =
        true ↔
      (exTripDur3600.departure_id (by decide) = exTripDur3650.departure_id (by decide) ∧
       exTripDur3600.arrival_id (by decide) = exTripDur3650.arrival_id (by decide) ∧
       |(exTripDur3600.duration (by decide) : Rat) - (exTripDur3650.duration (by decide) : Rat)| ≤
         (2 / 100) * (exTripDur3650.duration (by decide) : Rat) ∧
       (exTripDur3600.departure_time (by decide) : Rat) -
           (exTripDur3650.departure_time (by decide) : Rat) ≤
         (2 / 100) * (exTripDur3600.duration (by decide) : Rat) ∧
       (exTripDur3600.arrival_time (by decide) : Rat) -
           (exTripDur3650.arrival_time (by decide) : Rat) ≤
         (2 / 100) * (exTripDur3600.duration (by decide) : Rat)) :=
  approx_equal_characterization.1 exTripDur3600 exTripDur3650 (by decide) (by decide)
    (2 / 100) (by decide) (by decide)

end Ojp
